import Mathlib

/-!
Shallow embedding of the student/course enrollment registry of this
repository (the canonical copy in `Tasks/std_system`: `student.py`,
`course.py`, `systemmanager.py`).  Python dictionaries are modelled as
association lists preserving insertion order; the class-level ID counters
`Student._id_counter` and `Course._id_counter` are modelled as fields of
the registry state (one registry per process).  Operations that the
Python code rejects by printing a message and leaving state untouched are
modelled as returning a typed error together with the unchanged state:
"Invalid ... ID." branches become `Err.notFound`, "already enrolled" /
"Cannot remove" branches become `Err.conflict`, and the `ValueError`
raises in `Student.__init__` and `Student.add_grade` become
`Err.validation`.
-/

namespace StdSys

/-- Assignment `d[k] = v` on a Python dict modelled as an association
list: replaces the value at the first occurrence of `k`, or appends the
pair when `k` is absent (insertion order preserved). -/
def setAssoc {α β : Type} [DecidableEq α] (k : α) (v : β) :
    List (α × β) → List (α × β)
  | [] => [(k, v)]
  | (k', v') :: rest =>
      if k = k' then (k, v) :: rest else (k', v') :: setAssoc k v rest

/-- Lookup `d[k]` / `k in d` on a Python dict modelled as an association
list: value at the first occurrence of `k`. -/
def lookupA {α β : Type} [DecidableEq α] (k : α) :
    List (α × β) → Option β
  | [] => none
  | (k', v) :: rest => if k = k' then some v else lookupA k rest

/-- Deletion `del d[k]` on a Python dict modelled as an association
list. -/
def eraseKey {α β : Type} [DecidableEq α] (k : α)
    (l : List (α × β)) : List (α × β) :=
  l.filter (fun p => p.1 ≠ k)

/-- The three error kinds of the registry: `ValueError` raises map to
`validation`, "Invalid ... ID." print branches to `notFound`, and
"already enrolled" / "Cannot remove" print branches to `conflict`. -/
inductive Err : Type
  | validation : Err
  | notFound : Err
  | conflict : Err
  deriving DecidableEq, Repr

/-- `Student` from `Tasks/std_system/student.py`: id, name, grade dict
keyed by course name, and the ordered list of enrolled course names. -/
structure Student : Type where
  student_id : Nat
  name : String
  grades : List (String × Int)
  enrolled_courses : List String
  deriving DecidableEq, Repr

/-- `Course` from `Tasks/std_system/course.py`: id, name, and the
ordered list of enrolled student names. -/
structure Course : Type where
  course_id : Nat
  name : String
  enrolled_students : List String
  deriving DecidableEq, Repr

/-- `SystemManager` state from `Tasks/std_system/systemmanager.py`,
together with the two class-level ID counters. -/
structure SystemManager : Type where
  students : List (Nat × Student)
  courses : List (Nat × Course)
  student_counter : Nat
  course_counter : Nat
  deriving DecidableEq, Repr

/-- Fresh process state: empty dicts, both `_id_counter`s start at 1. -/
def SystemManager.init : SystemManager :=
  ⟨[], [], 1, 1⟩

/-- `Student.add_grade`: rejects a grade outside `0 <= grade <= 100`,
otherwise sets `self.grades[course_id] = grade` (the manager passes the
course *name* as `course_id`). -/
def Student.add_grade (course_id : String) (grade : Int) (s : Student) :
    Except Err Student :=
  if 0 ≤ grade ∧ grade ≤ 100 then
    Except.ok { s with grades := setAssoc course_id grade s.grades }
  else
    Except.error Err.validation

/-- `Student.enroll_in_course`: appends the course (name) unless already
present (in which case it only prints a message). -/
def Student.enroll_in_course (course : String) (s : Student) : Student :=
  if course ∈ s.enrolled_courses then s
  else { s with enrolled_courses := s.enrolled_courses ++ [course] }

/-- `Course.enroll_student`: appends the student (name) unless already
present (in which case it only prints a message). -/
def Course.enroll_student (student : String) (c : Course) : Course :=
  if student ∈ c.enrolled_students then c
  else { c with enrolled_students := c.enrolled_students ++ [student] }

/-- `SystemManager.add_student`: `Student.__init__` raises `ValueError`
when `not name` (true exactly for the empty string) before the counter
is consumed; otherwise the new student takes the counter value, the
counter is incremented, and the student is stored under its id. -/
def addStudent (name : String) (sm : SystemManager) :
    Except Err Nat × SystemManager :=
  if name = "" then
    (Except.error Err.validation, sm)
  else
    (Except.ok sm.student_counter,
     { sm with
        students := setAssoc sm.student_counter
          ⟨sm.student_counter, name, [], []⟩ sm.students,
        student_counter := sm.student_counter + 1 })

/-- `SystemManager.remove_student`: unknown id prints "Invalid student
ID." (`notFound`); nonempty `enrolled_courses` prints "Cannot remove."
(`conflict`); otherwise the entry is deleted. -/
def removeStudent (sid : Nat) (sm : SystemManager) :
    Except Err Unit × SystemManager :=
  match lookupA sid sm.students with
  | some st =>
      if st.enrolled_courses = [] then
        (Except.ok (), { sm with students := eraseKey sid sm.students })
      else
        (Except.error Err.conflict, sm)
  | none => (Except.error Err.notFound, sm)

/-- `SystemManager.add_course`: `Course.__init__` never rejects; the new
course takes the counter value and is stored under its id. -/
def addCourse (name : String) (sm : SystemManager) :
    Except Err Nat × SystemManager :=
  (Except.ok sm.course_counter,
   { sm with
      courses := setAssoc sm.course_counter
        ⟨sm.course_counter, name, []⟩ sm.courses,
      course_counter := sm.course_counter + 1 })

/-- `SystemManager.remove_course`: mirror of `remove_student`, keyed on
`enrolled_students`. -/
def removeCourse (cid : Nat) (sm : SystemManager) :
    Except Err Unit × SystemManager :=
  match lookupA cid sm.courses with
  | some co =>
      if co.enrolled_students = [] then
        (Except.ok (), { sm with courses := eraseKey cid sm.courses })
      else
        (Except.error Err.conflict, sm)
  | none => (Except.error Err.notFound, sm)

/-- `SystemManager.enroll_course`: both ids must exist (`notFound`
otherwise); if `course.name` is already in the student's list the call
is refused (`conflict`); otherwise `student.enroll_in_course(course.name)`
and `course.enroll_student(student.name)` are applied and written back. -/
def enrollCourse (sid cid : Nat) (sm : SystemManager) :
    Except Err Unit × SystemManager :=
  match lookupA sid sm.students, lookupA cid sm.courses with
  | some st, some co =>
      if co.name ∈ st.enrolled_courses then
        (Except.error Err.conflict, sm)
      else
        (Except.ok (),
         { sm with
            students := setAssoc sid (st.enroll_in_course co.name) sm.students,
            courses := setAssoc cid (co.enroll_student st.name) sm.courses })
  | _, _ => (Except.error Err.notFound, sm)

/-- `str.lower()` on the ASCII alphabet, character by character. -/
def strLower (s : String) : String :=
  ⟨s.data.map Char.toLower⟩

/-- The accumulator loop of `SystemManager.search_courses`: walk the
courses in insertion order, appending `course.name` whenever
`search_name.lower() == course.name.lower()`. -/
def searchLoop (q : String) : List Course → List String → List String
  | [], acc => acc
  | c :: rest, acc =>
      if strLower q = strLower c.name then
        searchLoop q rest (acc ++ [c.name])
      else
        searchLoop q rest acc

/-- `SystemManager.search_courses`. -/
def searchCourses (q : String) (sm : SystemManager) : List String :=
  searchLoop q (sm.courses.map Prod.snd) []

/-- `SystemManager.record_grade`: both ids must exist (`notFound`
otherwise); then `student.add_grade(course.name, grade)` either raises
(`validation`, state unchanged) or updates the student's grade dict. -/
def recordGrade (sid cid : Nat) (grade : Int) (sm : SystemManager) :
    Except Err Unit × SystemManager :=
  match lookupA sid sm.students, lookupA cid sm.courses with
  | some st, some co =>
      match st.add_grade co.name grade with
      | Except.ok st' =>
          (Except.ok (), { sm with students := setAssoc sid st' sm.students })
      | Except.error e => (Except.error e, sm)
  | _, _ => (Except.error Err.notFound, sm)

/-- The registry's operation alphabet, for statements about sequences of
calls. -/
inductive RegOp : Type
  | addStudent (name : String)
  | removeStudent (sid : Nat)
  | addCourse (name : String)
  | removeCourse (cid : Nat)
  | enroll (sid cid : Nat)
  | recordGrade (sid cid : Nat) (grade : Int)
  deriving DecidableEq, Repr

/-- State transition of one operation (the returned value dropped). -/
def applyOp : RegOp → SystemManager → SystemManager
  | RegOp.addStudent n, sm => (addStudent n sm).2
  | RegOp.removeStudent sid, sm => (removeStudent sid sm).2
  | RegOp.addCourse n, sm => (addCourse n sm).2
  | RegOp.removeCourse cid, sm => (removeCourse cid sm).2
  | RegOp.enroll sid cid, sm => (enrollCourse sid cid sm).2
  | RegOp.recordGrade sid cid g, sm => (recordGrade sid cid g sm).2

/-- Run a sequence of operations, collecting the ids returned by the
successful `add_student` calls, in call order. -/
def runIds : List RegOp → SystemManager → List Nat
  | [], _ => []
  | RegOp.addStudent n :: rest, sm =>
      match addStudent n sm with
      | (Except.ok i, sm') => i :: runIds rest sm'
      | (Except.error _, sm') => runIds rest sm'
  | op :: rest, sm => runIds rest (applyOp op sm)

/-- Run a sequence of operations to a final state. -/
def runOps (ops : List RegOp) (sm : SystemManager) : SystemManager :=
  ops.foldl (fun s op => applyOp op s) sm

/-- Key freshness: every stored id is below its counter.  Holds in every
reachable state because ids are handed out by the counters; rules out a
counter colliding with an existing key. -/
def WF (sm : SystemManager) : Prop :=
  (∀ p ∈ sm.students, p.1 < sm.student_counter) ∧
  (∀ p ∈ sm.courses, p.1 < sm.course_counter)

/-- Registry with students 1 and 2 both named "Bob" and course 1 named
"Math" (nobody enrolled yet). -/
def smPair : SystemManager :=
  (addCourse "Math"
    ((addStudent "Bob" ((addStudent "Bob" SystemManager.init).2)).2)).2

/-- `smPair` after student 1 enrolled in course 1. -/
def smEnrolled : SystemManager := (enrollCourse 1 1 smPair).2

/-- Registry with one student 1 "A" and one course 1 "Math", no
enrollment. -/
def smSolo : SystemManager :=
  (addCourse "Math" ((addStudent "A" SystemManager.init).2)).2

theorem lookupA_setAssoc_self {α β : Type} [DecidableEq α] (k : α) (v : β)
    (l : List (α × β)) : lookupA k (setAssoc k v l) = some v := by
  induction l with
  | nil => simp [setAssoc, lookupA]
  | cons p rest ih =>
    obtain ⟨k', v'⟩ := p
    by_cases h : k = k'
    · simp [setAssoc, lookupA, h]
    · simp [setAssoc, lookupA, h, ih]

theorem lookupA_setAssoc_ne {α β : Type} [DecidableEq α] {k k' : α}
    (h : k ≠ k') (v : β) (l : List (α × β)) :
    lookupA k (setAssoc k' v l) = lookupA k l := by
  induction l with
  | nil => simp [setAssoc, lookupA, h]
  | cons p rest ih =>
    obtain ⟨a, b⟩ := p
    by_cases h2 : k' = a
    · subst h2
      simp [setAssoc, lookupA, h]
    · by_cases h3 : k = a
      · simp [setAssoc, lookupA, h2, h3]
      · simp [setAssoc, lookupA, h2, h3, ih]

theorem lookupA_eraseKey_ne {α β : Type} [DecidableEq α] {k k' : α}
    (h : k ≠ k') (l : List (α × β)) :
    lookupA k (eraseKey k' l) = lookupA k l := by
  induction l with
  | nil => simp [eraseKey, lookupA]
  | cons p rest ih =>
    obtain ⟨a, b⟩ := p
    by_cases h2 : a = k'
    · subst h2
      simpa [eraseKey, lookupA, h] using ih
    · by_cases h3 : k = a
      · simp [eraseKey, lookupA, h2, h3]
      · simpa [eraseKey, lookupA, h2, h3] using ih

theorem lookupA_mem {α β : Type} [DecidableEq α] {k : α} {v : β}
    {l : List (α × β)} (h : lookupA k l = some v) : (k, v) ∈ l := by
  induction l with
  | nil => simp [lookupA] at h
  | cons p rest ih =>
    obtain ⟨a, b⟩ := p
    by_cases h2 : k = a
    · subst h2
      simp [lookupA] at h
      simp [h]
    · simp [lookupA, h2] at h
      exact List.mem_cons_of_mem _ (ih h)

theorem Student.enroll_in_course_name (cn : String) (s : Student) :
    (s.enroll_in_course cn).name = s.name := by
  unfold Student.enroll_in_course
  split <;> rfl

theorem Course.enroll_student_name (sn : String) (c : Course) :
    (c.enroll_student sn).name = c.name := by
  unfold Course.enroll_student
  split <;> rfl

theorem Student.mem_enroll_in_course (cn : String) (s : Student) :
    cn ∈ (s.enroll_in_course cn).enrolled_courses := by
  unfold Student.enroll_in_course
  by_cases h : cn ∈ s.enrolled_courses <;> simp [h]

theorem Course.mem_enroll_student (sn : String) (c : Course) :
    sn ∈ (c.enroll_student sn).enrolled_students := by
  unfold Course.enroll_student
  by_cases h : sn ∈ c.enrolled_students <;> simp [h]

theorem Student.enroll_in_course_mono {x : String} (cn : String)
    (s : Student) (h : x ∈ s.enrolled_courses) :
    x ∈ (s.enroll_in_course cn).enrolled_courses := by
  unfold Student.enroll_in_course
  split
  · exact h
  · exact List.mem_append_left _ h

theorem Course.enroll_student_mono {x : String} (sn : String)
    (c : Course) (h : x ∈ c.enrolled_students) :
    x ∈ (c.enroll_student sn).enrolled_students := by
  unfold Course.enroll_student
  split
  · exact h
  · exact List.mem_append_left _ h

/-- Inversion of a successful `enroll_course` call: both lookups hit,
the student was not yet enrolled (by course name), and the new state
writes back `enroll_in_course` / `enroll_student` at the two keys. -/
theorem enroll_post {sid cid : Nat} {sm sm' : SystemManager}
    (h : enrollCourse sid cid sm = (Except.ok (), sm')) :
    ∃ st co, lookupA sid sm.students = some st ∧
      lookupA cid sm.courses = some co ∧
      co.name ∉ st.enrolled_courses ∧
      sm' = { sm with
              students := setAssoc sid (st.enroll_in_course co.name) sm.students,
              courses := setAssoc cid (co.enroll_student st.name) sm.courses } := by
  unfold enrollCourse at h
  cases hs : lookupA sid sm.students with
  | none =>
    rw [hs] at h
    cases hc : lookupA cid sm.courses <;> rw [hc] at h <;> simp at h
  | some st =>
    cases hc : lookupA cid sm.courses with
    | none =>
      rw [hs, hc] at h
      simp at h
    | some co =>
      rw [hs, hc] at h
      by_cases hmem : co.name ∈ st.enrolled_courses
      · simp [hmem] at h
      · simp only [hmem, if_neg, not_false_iff, if_false] at h
        refine ⟨st, co, rfl, rfl, hmem, ?_⟩
        have h2 := congrArg Prod.snd h
        exact h2.symm

theorem searchLoop_eq (q : String) (cs : List Course) (acc : List String) :
    searchLoop q cs acc =
      acc ++ (cs.filter (fun c => decide (strLower q = strLower c.name))).map
        Course.name := by
  induction cs generalizing acc with
  | nil => simp [searchLoop]
  | cons c rest ih =>
    by_cases h : strLower q = strLower c.name
    · simp [searchLoop, h, ih]
    · simp [searchLoop, h, ih]

/-- C10: `remove_student` only ever touches `self.students`; the courses
dict is returned untouched on every branch. -/
theorem C10_remove_student_frames_courses (sid : Nat) (sm : SystemManager) :
    ((removeStudent sid sm).2).courses = sm.courses := by
  unfold removeStudent
  cases h : lookupA sid sm.students with
  | none => rfl
  | some st =>
    by_cases h2 : st.enrolled_courses = [] <;> simp [h2]

/-- C9: `search_courses` returns exactly the names of courses whose
lowered name equals the lowered query, in registry iteration order, and
the empty list when no course matches. -/
theorem C9_search_courses_exact_match (q : String) (sm : SystemManager) :
    searchCourses q sm =
      ((sm.courses.map Prod.snd).filter
        (fun c => decide (strLower q = strLower c.name))).map Course.name ∧
    ((∀ c ∈ sm.courses.map Prod.snd, strLower c.name ≠ strLower q) →
      searchCourses q sm = []) := by
  constructor
  · simpa using searchLoop_eq q (sm.courses.map Prod.snd) []
  · intro hnone
    have h := searchLoop_eq q (sm.courses.map Prod.snd) []
    rw [searchCourses, h]
    simp only [List.nil_append, List.map_eq_nil_iff, List.filter_eq_nil_iff]
    intro c hc
    simp only [decide_eq_true_eq]
    exact fun he => hnone c hc he.symm

/-- C9 witness: `"math"` matches courses named "Math" and "MATH" but not
"Mathematics"; a registry with only "Mathematics" yields the empty
list. -/
theorem C9_search_courses_exact_match_witness :
    searchCourses "math"
        ((addCourse "MATH" ((addCourse "Mathematics"
          ((addCourse "Math" SystemManager.init).2)).2)).2) =
      ["Math", "MATH"] ∧
    searchCourses "math" ((addCourse "Mathematics" SystemManager.init).2) = [] := by
  constructor
  · rw [(C9_search_courses_exact_match "math" _).1]
    decide
  · exact (C9_search_courses_exact_match "math" _).2 (by decide)

/-- C7: `remove_student` on a student with a nonempty enrolled-course
list fails with `ConflictError` leaving the state (hence the student's
entry) unchanged; on an unknown id it fails with `NotFoundError`. -/
theorem C7_remove_student_guards (sid : Nat) (sm : SystemManager) :
    (∀ st, lookupA sid sm.students = some st → st.enrolled_courses ≠ [] →
      removeStudent sid sm = (Except.error Err.conflict, sm) ∧
      lookupA sid ((removeStudent sid sm).2).students = some st) ∧
    (lookupA sid sm.students = none →
      removeStudent sid sm = (Except.error Err.notFound, sm)) := by
  constructor
  · intro st hst hne
    have hres : removeStudent sid sm = (Except.error Err.conflict, sm) := by
      unfold removeStudent
      rw [hst]
      simp [hne]
    exact ⟨hres, by rw [hres]; exact hst⟩
  · intro hnone
    unfold removeStudent
    rw [hnone]

/-- C7 witness: in `smEnrolled`, removing the enrolled student 1 is
refused with `conflict` and student 1 stays retrievable; removing the
unknown id 99 yields `notFound`. -/
theorem C7_remove_student_guards_witness :
    removeStudent 1 smEnrolled = (Except.error Err.conflict, smEnrolled) ∧
    lookupA 1 ((removeStudent 1 smEnrolled).2).students =
      some ⟨1, "Bob", [], ["Math"]⟩ ∧
    removeStudent 99 smEnrolled = (Except.error Err.notFound, smEnrolled) :=
  ⟨((C7_remove_student_guards 1 smEnrolled).1 ⟨1, "Bob", [], ["Math"]⟩
      (by decide) (by decide)).1,
   ((C7_remove_student_guards 1 smEnrolled).1 ⟨1, "Bob", [], ["Math"]⟩
      (by decide) (by decide)).2,
   (C7_remove_student_guards 99 smEnrolled).2 (by decide)⟩

/-- C8: for a registered student and course, `record_grade` rejects
grades -1 and 101 with `ValidationError` (state unchanged) and accepts
0 and 100, storing the grade under the course name in the student's
grade dict. -/
theorem C8_record_grade_bounds (sid cid : Nat) (sm : SystemManager)
    (st : Student) (co : Course)
    (hs : lookupA sid sm.students = some st)
    (hc : lookupA cid sm.courses = some co) :
    recordGrade sid cid (-1) sm = (Except.error Err.validation, sm) ∧
    recordGrade sid cid 101 sm = (Except.error Err.validation, sm) ∧
    (recordGrade sid cid 0 sm).1 = Except.ok () ∧
    (∃ st', lookupA sid ((recordGrade sid cid 0 sm).2).students = some st' ∧
      lookupA co.name st'.grades = some 0) ∧
    (recordGrade sid cid 100 sm).1 = Except.ok () ∧
    (∃ st', lookupA sid ((recordGrade sid cid 100 sm).2).students = some st' ∧
      lookupA co.name st'.grades = some 100) := by
  have hm1 : recordGrade sid cid (-1) sm = (Except.error Err.validation, sm) := by
    unfold recordGrade
    rw [hs, hc]
    simp [Student.add_grade]
  have hp101 : recordGrade sid cid 101 sm = (Except.error Err.validation, sm) := by
    unfold recordGrade
    rw [hs, hc]
    simp [Student.add_grade]
  have h0 : recordGrade sid cid 0 sm =
      (Except.ok (),
       { sm with
          students := setAssoc sid { st with grades := setAssoc co.name 0 st.grades } sm.students }) := by
    unfold recordGrade
    rw [hs, hc]
    simp [Student.add_grade]
  have h100 : recordGrade sid cid 100 sm =
      (Except.ok (),
       { sm with
          students := setAssoc sid { st with grades := setAssoc co.name 100 st.grades } sm.students }) := by
    unfold recordGrade
    rw [hs, hc]
    simp [Student.add_grade]
  refine ⟨hm1, hp101, by rw [h0], ?_, by rw [h100], ?_⟩
  · refine ⟨{ st with grades := setAssoc co.name 0 st.grades }, ?_, ?_⟩
    · rw [h0]
      exact lookupA_setAssoc_self _ _ _
    · exact lookupA_setAssoc_self _ _ _
  · refine ⟨{ st with grades := setAssoc co.name 100 st.grades }, ?_, ?_⟩
    · rw [h100]
      exact lookupA_setAssoc_self _ _ _
    · exact lookupA_setAssoc_self _ _ _

/-- C8 witness: in `smSolo` (student 1, course 1 "Math"), grades -1 and
101 are rejected and grades 0 and 100 are stored. -/
theorem C8_record_grade_bounds_witness :
    recordGrade 1 1 (-1) smSolo = (Except.error Err.validation, smSolo) ∧
    recordGrade 1 1 101 smSolo = (Except.error Err.validation, smSolo) ∧
    (recordGrade 1 1 0 smSolo).1 = Except.ok () ∧
    (∃ st', lookupA 1 ((recordGrade 1 1 0 smSolo).2).students = some st' ∧
      lookupA "Math" st'.grades = some 0) :=
  have h := C8_record_grade_bounds 1 1 smSolo ⟨1, "A", [], []⟩ ⟨1, "Math", []⟩
    (by decide) (by decide)
  ⟨h.1, h.2.1, h.2.2.1, h.2.2.2.1⟩

/-- C4: after a successful `enroll_course(sid, cid)`, repeating the same
call hits the "already enrolled" branch: it fails with `ConflictError`
and returns the state unchanged (so the student's enrolled-course list,
and in particular its length, is unchanged). -/
theorem C4_second_enroll_conflict (sid cid : Nat) (sm sm' : SystemManager)
    (h : enrollCourse sid cid sm = (Except.ok (), sm')) :
    enrollCourse sid cid sm' = (Except.error Err.conflict, sm') := by
  obtain ⟨st, co, hs, hc, hmem, rfl⟩ := enroll_post h
  have hs' : lookupA sid
      (setAssoc sid (st.enroll_in_course co.name) sm.students) =
      some (st.enroll_in_course co.name) := lookupA_setAssoc_self _ _ _
  have hc' : lookupA cid
      (setAssoc cid (co.enroll_student st.name) sm.courses) =
      some (co.enroll_student st.name) := lookupA_setAssoc_self _ _ _
  unfold enrollCourse
  rw [show ({ sm with
        students := setAssoc sid (st.enroll_in_course co.name) sm.students,
        courses := setAssoc cid (co.enroll_student st.name) sm.courses } :
      SystemManager).students =
      setAssoc sid (st.enroll_in_course co.name) sm.students from rfl]
  rw [hs']
  rw [show ({ sm with
        students := setAssoc sid (st.enroll_in_course co.name) sm.students,
        courses := setAssoc cid (co.enroll_student st.name) sm.courses } :
      SystemManager).courses =
      setAssoc cid (co.enroll_student st.name) sm.courses from rfl]
  rw [hc']
  simp [Course.enroll_student_name, Student.mem_enroll_in_course]

/-- C4 witness: enrolling student 1 in course 1 of `smSolo` succeeds and
re-enrolling is refused with `ConflictError`, state unchanged. -/
theorem C4_second_enroll_conflict_witness :
    enrollCourse 1 1 ((enrollCourse 1 1 smSolo).2) =
      (Except.error Err.conflict, (enrollCourse 1 1 smSolo).2) :=
  C4_second_enroll_conflict 1 1 smSolo ((enrollCourse 1 1 smSolo).2) rfl

/-- C5: evaluation of the code at the failing input of the grade
invariant.  In `smSolo` (built by `add_student "A"` then
`add_course "Math"`, with no enroll call anywhere in the trace),
`record_grade(1, 1, 50)` succeeds and stores a grade entry keyed by
"Math" although student 1's enrolled-course list is empty and the
student was never enrolled: the Tasks `record_grade` path never checks
enrollment, unlike the duplicate `src/PY/STD` `Student.add_grade`, which
raises "Not enrolled in course" first. -/
theorem C5_grade_without_enrollment :
    (recordGrade 1 1 50 smSolo).1 = Except.ok () ∧
    lookupA 1 ((recordGrade 1 1 50 smSolo).2).students =
      some ⟨1, "A", [("Math", 50)], []⟩ :=
  ⟨rfl, rfl⟩

/-- C6 counterexample: `add_student " "` (whitespace-only name) is NOT
rejected — Python's `if not name` is false for `" "` — so a student
named `" "` is created and id 1 is returned, contradicting "fails with
ValidationError when the name is empty or blank". -/
theorem C6_blank_name_accepted_cex :
    (addStudent " " SystemManager.init).1 = Except.ok 1 ∧
    lookupA 1 ((addStudent " " SystemManager.init).2).students =
      some ⟨1, " ", [], []⟩ :=
  ⟨rfl, rfl⟩

/-- C6 amended: `add_student(name)` fails with `ValidationError` exactly
when the name is the empty string (whitespace-only names are accepted);
otherwise it creates a Student carrying the next counter value, stores
it under that id, returns the id, and increments the counter. -/
theorem C6_add_student_amended (name : String) (sm : SystemManager) :
    (name = "" → addStudent name sm = (Except.error Err.validation, sm)) ∧
    (name ≠ "" →
      (addStudent name sm).1 = Except.ok sm.student_counter ∧
      lookupA sm.student_counter ((addStudent name sm).2).students =
        some ⟨sm.student_counter, name, [], []⟩ ∧
      ((addStudent name sm).2).student_counter = sm.student_counter + 1) := by
  constructor
  · intro h
    unfold addStudent
    rw [if_pos h]
  · intro h
    unfold addStudent
    rw [if_neg h]
    exact ⟨rfl, lookupA_setAssoc_self _ _ _, rfl⟩

/-- C6 witness: the empty name is rejected; name "B" on a fresh registry
returns id 1, stores the student, and bumps the counter to 2. -/
theorem C6_add_student_amended_witness :
    addStudent "" SystemManager.init =
      (Except.error Err.validation, SystemManager.init) ∧
    (addStudent "B" SystemManager.init).1 = Except.ok 1 ∧
    lookupA 1 ((addStudent "B" SystemManager.init).2).students =
      some ⟨1, "B", [], []⟩ ∧
    ((addStudent "B" SystemManager.init).2).student_counter = 2 :=
  ⟨(C6_add_student_amended "" SystemManager.init).1 rfl,
   ((C6_add_student_amended "B" SystemManager.init).2 (by decide)).1,
   ((C6_add_student_amended "B" SystemManager.init).2 (by decide)).2.1,
   ((C6_add_student_amended "B" SystemManager.init).2 (by decide)).2.2⟩

/-- Every operation other than `add_student` leaves
`Student._id_counter` unchanged. -/
theorem applyOp_student_counter (op : RegOp) (sm : SystemManager)
    (h : ∀ n, op ≠ RegOp.addStudent n) :
    (applyOp op sm).student_counter = sm.student_counter := by
  cases op with
  | addStudent n => exact absurd rfl (h n)
  | removeStudent sid =>
    simp only [applyOp]
    unfold removeStudent
    cases lookupA sid sm.students with
    | none => rfl
    | some st => by_cases h2 : st.enrolled_courses = [] <;> simp [h2]
  | addCourse n => rfl
  | removeCourse cid =>
    simp only [applyOp]
    unfold removeCourse
    cases lookupA cid sm.courses with
    | none => rfl
    | some co => by_cases h2 : co.enrolled_students = [] <;> simp [h2]
  | enroll sid cid =>
    simp only [applyOp]
    unfold enrollCourse
    cases lookupA sid sm.students with
    | none => cases lookupA cid sm.courses <;> rfl
    | some st =>
      cases lookupA cid sm.courses with
      | none => rfl
      | some co => by_cases h2 : co.name ∈ st.enrolled_courses <;> simp [h2]
  | recordGrade sid cid g =>
    simp only [applyOp]
    unfold recordGrade
    cases lookupA sid sm.students with
    | none => cases lookupA cid sm.courses <;> rfl
    | some st =>
      cases lookupA cid sm.courses with
      | none => rfl
      | some co =>
        unfold Student.add_grade
        by_cases h2 : (0:Int) ≤ g ∧ g ≤ 100 <;> simp [h2]

/-- Along any run, the ids returned by `add_student` are bounded below
by the current counter, pairwise increasing, and the first one (if any)
is exactly the current counter. -/
theorem runIds_ge_and_sorted (ops : List RegOp) (sm : SystemManager) :
    (∀ i ∈ runIds ops sm, sm.student_counter ≤ i) ∧
    List.Pairwise (· < ·) (runIds ops sm) ∧
    ((runIds ops sm).head? = none ∨
      (runIds ops sm).head? = some sm.student_counter) := by
  induction ops generalizing sm with
  | nil => simp [runIds]
  | cons op rest ih =>
    cases op with
    | addStudent n =>
      by_cases h : n = ""
      · have hred : runIds (RegOp.addStudent n :: rest) sm = runIds rest sm := by
          simp [runIds, addStudent, h]
        rw [hred]
        exact ih sm
      · have hred : runIds (RegOp.addStudent n :: rest) sm =
            sm.student_counter :: runIds rest ((addStudent n sm).2) := by
          simp [runIds, addStudent, h]
        have hcnt : ((addStudent n sm).2).student_counter =
            sm.student_counter + 1 := by
          simp [addStudent, h]
        obtain ⟨ihge, ihpw, ihhd⟩ := ih ((addStudent n sm).2)
        rw [hcnt] at ihge
        rw [hred]
        refine ⟨?_, ?_, Or.inr rfl⟩
        · intro i hi
          rcases List.mem_cons.mp hi with h1 | h1
          · exact h1 ▸ le_refl _
          · exact le_trans (Nat.le_succ _) (ihge i h1)
        · refine List.pairwise_cons.mpr ⟨?_, ihpw⟩
          intro i hi
          exact lt_of_lt_of_le (Nat.lt_succ_self _) (ihge i hi)
    | removeStudent sid =>
      have hred : runIds (RegOp.removeStudent sid :: rest) sm =
          runIds rest (applyOp (RegOp.removeStudent sid) sm) := rfl
      have hc := applyOp_student_counter (RegOp.removeStudent sid) sm
        (fun n h => by cases h)
      rw [hred, ← hc]
      exact ih _
    | addCourse n =>
      have hred : runIds (RegOp.addCourse n :: rest) sm =
          runIds rest (applyOp (RegOp.addCourse n) sm) := rfl
      have hc := applyOp_student_counter (RegOp.addCourse n) sm
        (fun m h => by cases h)
      rw [hred, ← hc]
      exact ih _
    | removeCourse cid =>
      have hred : runIds (RegOp.removeCourse cid :: rest) sm =
          runIds rest (applyOp (RegOp.removeCourse cid) sm) := rfl
      have hc := applyOp_student_counter (RegOp.removeCourse cid) sm
        (fun n h => by cases h)
      rw [hred, ← hc]
      exact ih _
    | enroll sid cid =>
      have hred : runIds (RegOp.enroll sid cid :: rest) sm =
          runIds rest (applyOp (RegOp.enroll sid cid) sm) := rfl
      have hc := applyOp_student_counter (RegOp.enroll sid cid) sm
        (fun n h => by cases h)
      rw [hred, ← hc]
      exact ih _
    | recordGrade sid cid g =>
      have hred : runIds (RegOp.recordGrade sid cid g :: rest) sm =
          runIds rest (applyOp (RegOp.recordGrade sid cid g) sm) := rfl
      have hc := applyOp_student_counter (RegOp.recordGrade sid cid g) sm
        (fun n h => by cases h)
      rw [hred, ← hc]
      exact ih _

/-- C3: over any operation sequence from a fresh registry, the ids
returned by successful `add_student` calls are pairwise strictly
increasing (hence never repeated, even across removals), all at least 1,
and the first returned id is 1. -/
theorem C3_student_ids_increasing (ops : List RegOp) :
    List.Pairwise (· < ·) (runIds ops SystemManager.init) ∧
    (runIds ops SystemManager.init).Nodup ∧
    (∀ i ∈ runIds ops SystemManager.init, 1 ≤ i) ∧
    (runIds ops SystemManager.init ≠ [] →
      (runIds ops SystemManager.init).head? = some 1) := by
  obtain ⟨hge, hpw, hhd⟩ := runIds_ge_and_sorted ops SystemManager.init
  refine ⟨hpw, hpw.imp (fun h => Nat.ne_of_lt h), hge, ?_⟩
  intro hne
  rcases hhd with h | h
  · exact absurd (List.head?_eq_none_iff.mp h) hne
  · exact h

/-- C3 witness: the run `add_student "A"; add_student "" (rejected);
remove_student 1; add_student "B"` returns ids `[1, 2]`: increasing,
duplicate-free and starting at 1 despite the intervening removal. -/
theorem C3_student_ids_increasing_witness :
    runIds [RegOp.addStudent "A", RegOp.addStudent "",
        RegOp.removeStudent 1, RegOp.addStudent "B"] SystemManager.init =
      [1, 2] ∧
    (runIds [RegOp.addStudent "A", RegOp.addStudent "",
        RegOp.removeStudent 1, RegOp.addStudent "B"]
        SystemManager.init).head? = some 1 :=
  ⟨by decide,
   (C3_student_ids_increasing [RegOp.addStudent "A", RegOp.addStudent "",
      RegOp.removeStudent 1, RegOp.addStudent "B"]).2.2.2 (by decide)⟩

/-- Once a student/course pair carries both reciprocal references, every
registry operation keeps both entries present, keeps their names, and
keeps both references (the manager has no unenroll operation, removal of
either entity is blocked by the nonempty lists, and enrollment lists
only grow).  `WF` rules out a counter colliding with an existing key. -/
theorem sym_pair_preserved (sid cid : Nat) (t : SystemManager) (op : RegOp)
    (st : Student) (co : Course)
    (hwf : WF t)
    (hs : lookupA sid t.students = some st)
    (hc : lookupA cid t.courses = some co)
    (h1 : co.name ∈ st.enrolled_courses)
    (h2 : st.name ∈ co.enrolled_students) :
    ∃ st2 co2,
      lookupA sid (applyOp op t).students = some st2 ∧
      lookupA cid (applyOp op t).courses = some co2 ∧
      st2.name = st.name ∧ co2.name = co.name ∧
      co2.name ∈ st2.enrolled_courses ∧
      st2.name ∈ co2.enrolled_students := by
  cases op with
  | addStudent n =>
    by_cases h : n = ""
    · have heq : applyOp (RegOp.addStudent n) t = t := by
        simp [applyOp, addStudent, h]
      rw [heq]
      exact ⟨st, co, hs, hc, rfl, rfl, h1, h2⟩
    · have heq : applyOp (RegOp.addStudent n) t =
          { t with
             students := setAssoc t.student_counter
               ⟨t.student_counter, n, [], []⟩ t.students,
             student_counter := t.student_counter + 1 } := by
        simp [applyOp, addStudent, h]
      have hne : sid ≠ t.student_counter :=
        Nat.ne_of_lt (hwf.1 _ (lookupA_mem hs))
      rw [heq]
      exact ⟨st, co, (lookupA_setAssoc_ne hne _ _).trans hs, hc, rfl, rfl, h1, h2⟩
  | removeStudent x =>
    cases hx : lookupA x t.students with
    | none =>
      have heq : applyOp (RegOp.removeStudent x) t = t := by
        simp [applyOp, removeStudent, hx]
      rw [heq]
      exact ⟨st, co, hs, hc, rfl, rfl, h1, h2⟩
    | some stx =>
      by_cases hemp : stx.enrolled_courses = []
      · have heq : applyOp (RegOp.removeStudent x) t =
            { t with students := eraseKey x t.students } := by
          simp [applyOp, removeStudent, hx, hemp]
        have hne : sid ≠ x := by
          intro he
          rw [← he, hs] at hx
          obtain rfl := Option.some.inj hx
          rw [hemp] at h1
          exact absurd h1 (List.not_mem_nil _)
        rw [heq]
        exact ⟨st, co, (lookupA_eraseKey_ne hne _).trans hs, hc, rfl, rfl, h1, h2⟩
      · have heq : applyOp (RegOp.removeStudent x) t = t := by
          simp [applyOp, removeStudent, hx, hemp]
        rw [heq]
        exact ⟨st, co, hs, hc, rfl, rfl, h1, h2⟩
  | addCourse n =>
    have heq : applyOp (RegOp.addCourse n) t =
        { t with
           courses := setAssoc t.course_counter
             ⟨t.course_counter, n, []⟩ t.courses,
           course_counter := t.course_counter + 1 } := by
      simp [applyOp, addCourse]
    have hne : cid ≠ t.course_counter :=
      Nat.ne_of_lt (hwf.2 _ (lookupA_mem hc))
    rw [heq]
    exact ⟨st, co, hs, (lookupA_setAssoc_ne hne _ _).trans hc, rfl, rfl, h1, h2⟩
  | removeCourse y =>
    cases hy : lookupA y t.courses with
    | none =>
      have heq : applyOp (RegOp.removeCourse y) t = t := by
        simp [applyOp, removeCourse, hy]
      rw [heq]
      exact ⟨st, co, hs, hc, rfl, rfl, h1, h2⟩
    | some coy =>
      by_cases hemp : coy.enrolled_students = []
      · have heq : applyOp (RegOp.removeCourse y) t =
            { t with courses := eraseKey y t.courses } := by
          simp [applyOp, removeCourse, hy, hemp]
        have hne : cid ≠ y := by
          intro he
          rw [← he, hc] at hy
          obtain rfl := Option.some.inj hy
          rw [hemp] at h2
          exact absurd h2 (List.not_mem_nil _)
        rw [heq]
        exact ⟨st, co, hs, (lookupA_eraseKey_ne hne _).trans hc, rfl, rfl, h1, h2⟩
      · have heq : applyOp (RegOp.removeCourse y) t = t := by
          simp [applyOp, removeCourse, hy, hemp]
        rw [heq]
        exact ⟨st, co, hs, hc, rfl, rfl, h1, h2⟩
  | enroll x y =>
    cases hx : lookupA x t.students with
    | none =>
      have heq : applyOp (RegOp.enroll x y) t = t := by
        cases hy : lookupA y t.courses <;> simp [applyOp, enrollCourse, hx, hy]
      rw [heq]
      exact ⟨st, co, hs, hc, rfl, rfl, h1, h2⟩
    | some stx =>
      cases hy : lookupA y t.courses with
      | none =>
        have heq : applyOp (RegOp.enroll x y) t = t := by
          simp [applyOp, enrollCourse, hx, hy]
        rw [heq]
        exact ⟨st, co, hs, hc, rfl, rfl, h1, h2⟩
      | some coy =>
        by_cases hmem : coy.name ∈ stx.enrolled_courses
        · have heq : applyOp (RegOp.enroll x y) t = t := by
            simp [applyOp, enrollCourse, hx, hy, hmem]
          rw [heq]
          exact ⟨st, co, hs, hc, rfl, rfl, h1, h2⟩
        · have heq : applyOp (RegOp.enroll x y) t =
              { t with
                 students := setAssoc x (stx.enroll_in_course coy.name) t.students,
                 courses := setAssoc y (coy.enroll_student stx.name) t.courses } := by
            simp [applyOp, enrollCourse, hx, hy, hmem]
          rw [heq]
          have hside1 : ∃ st2,
              lookupA sid (setAssoc x (stx.enroll_in_course coy.name) t.students) =
                some st2 ∧ st2.name = st.name ∧ co.name ∈ st2.enrolled_courses := by
            by_cases hxs : x = sid
            · subst hxs
              rw [hs] at hx
              obtain rfl := Option.some.inj hx
              exact ⟨st.enroll_in_course coy.name, lookupA_setAssoc_self _ _ _,
                Student.enroll_in_course_name _ _,
                Student.enroll_in_course_mono _ _ h1⟩
            · exact ⟨st, (lookupA_setAssoc_ne (fun he => hxs he.symm) _ _).trans hs,
                rfl, h1⟩
          have hside2 : ∃ co2,
              lookupA cid (setAssoc y (coy.enroll_student stx.name) t.courses) =
                some co2 ∧ co2.name = co.name ∧ st.name ∈ co2.enrolled_students := by
            by_cases hyc : y = cid
            · subst hyc
              rw [hc] at hy
              obtain rfl := Option.some.inj hy
              exact ⟨co.enroll_student stx.name, lookupA_setAssoc_self _ _ _,
                Course.enroll_student_name _ _,
                Course.enroll_student_mono _ _ h2⟩
            · exact ⟨co, (lookupA_setAssoc_ne (fun he => hyc he.symm) _ _).trans hc,
                rfl, h2⟩
          obtain ⟨st2, hst2, hst2n, hst2m⟩ := hside1
          obtain ⟨co2, hco2, hco2n, hco2m⟩ := hside2
          exact ⟨st2, co2, hst2, hco2, hst2n, hco2n,
            hco2n ▸ hst2m, hst2n ▸ hco2m⟩
  | recordGrade x y g =>
    cases hx : lookupA x t.students with
    | none =>
      have heq : applyOp (RegOp.recordGrade x y g) t = t := by
        cases hy : lookupA y t.courses <;> simp [applyOp, recordGrade, hx, hy]
      rw [heq]
      exact ⟨st, co, hs, hc, rfl, rfl, h1, h2⟩
    | some stx =>
      cases hy : lookupA y t.courses with
      | none =>
        have heq : applyOp (RegOp.recordGrade x y g) t = t := by
          simp [applyOp, recordGrade, hx, hy]
        rw [heq]
        exact ⟨st, co, hs, hc, rfl, rfl, h1, h2⟩
      | some coy =>
        by_cases hg : (0:Int) ≤ g ∧ g ≤ 100
        · have heq : applyOp (RegOp.recordGrade x y g) t =
              { t with
                 students := setAssoc x
                   { stx with grades := setAssoc coy.name g stx.grades }
                   t.students } := by
            simp [applyOp, recordGrade, hx, hy, Student.add_grade, hg]
          rw [heq]
          by_cases hxs : x = sid
          · subst hxs
            rw [hs] at hx
            obtain rfl := Option.some.inj hx
            exact ⟨{ st with grades := setAssoc coy.name g st.grades }, co,
              lookupA_setAssoc_self _ _ _, hc, rfl, rfl, h1, h2⟩
          · exact ⟨st, co,
              (lookupA_setAssoc_ne (fun he => hxs he.symm) _ _).trans hs,
              hc, rfl, rfl, h1, h2⟩
        · have heq : applyOp (RegOp.recordGrade x y g) t = t := by
            simp [applyOp, recordGrade, hx, hy, Student.add_grade, hg]
          rw [heq]
          exact ⟨st, co, hs, hc, rfl, rfl, h1, h2⟩

/-- C1: after a successful `enroll_course(sid, cid)` the student's
enrolled-course list contains the course's name if and only if the
course's enrolled-student list contains the student's name (both in fact
hold), and once a pair carries both reciprocal references every further
operation preserves both (the symmetry invariant for the enrolled pair
is preserved by every operation; `WF` is the key-freshness invariant of
reachable states). -/
theorem C1_enroll_symmetry (sid cid : Nat) (sm sm' : SystemManager)
    (h : enrollCourse sid cid sm = (Except.ok (), sm')) :
    (∃ st' co', lookupA sid sm'.students = some st' ∧
      lookupA cid sm'.courses = some co' ∧
      co'.name ∈ st'.enrolled_courses ∧
      st'.name ∈ co'.enrolled_students ∧
      (co'.name ∈ st'.enrolled_courses ↔ st'.name ∈ co'.enrolled_students)) ∧
    (∀ t op stx cox, WF t →
      lookupA sid t.students = some stx →
      lookupA cid t.courses = some cox →
      cox.name ∈ stx.enrolled_courses →
      stx.name ∈ cox.enrolled_students →
      ∃ st2 co2, lookupA sid (applyOp op t).students = some st2 ∧
        lookupA cid (applyOp op t).courses = some co2 ∧
        (co2.name ∈ st2.enrolled_courses ↔ st2.name ∈ co2.enrolled_students)) := by
  constructor
  · obtain ⟨st, co, hs, hc, hmem, rfl⟩ := enroll_post h
    refine ⟨st.enroll_in_course co.name, co.enroll_student st.name,
      lookupA_setAssoc_self _ _ _, lookupA_setAssoc_self _ _ _, ?_, ?_, ?_⟩
    · rw [Course.enroll_student_name]
      exact Student.mem_enroll_in_course _ _
    · rw [Student.enroll_in_course_name]
      exact Course.mem_enroll_student _ _
    · constructor
      · intro _
        rw [Student.enroll_in_course_name]
        exact Course.mem_enroll_student _ _
      · intro _
        rw [Course.enroll_student_name]
        exact Student.mem_enroll_in_course _ _
  · intro t op stx cox hwf hsx hcx hm1 hm2
    obtain ⟨st2, co2, hl1, hl2, _, _, hmm1, hmm2⟩ :=
      sym_pair_preserved sid cid t op stx cox hwf hsx hcx hm1 hm2
    exact ⟨st2, co2, hl1, hl2, iff_of_true hmm1 hmm2⟩

/-- C1 witness: enrolling student 1 in course 1 of `smSolo` yields a
state where the pair carries both reciprocal name references. -/
theorem C1_enroll_symmetry_witness :
    ∃ st' co',
      lookupA 1 ((enrollCourse 1 1 smSolo).2).students = some st' ∧
      lookupA 1 ((enrollCourse 1 1 smSolo).2).courses = some co' ∧
      co'.name ∈ st'.enrolled_courses ∧
      st'.name ∈ co'.enrolled_students ∧
      (co'.name ∈ st'.enrolled_courses ↔ st'.name ∈ co'.enrolled_students) :=
  (C1_enroll_symmetry 1 1 smSolo ((enrollCourse 1 1 smSolo).2) rfl).1

/-- C2 counterexample: in `smEnrolled` (students 1 and 2 both named
"Bob", student 1 already enrolled in course 1 "Math"),
`enroll_course(2, 1)` succeeds, appends "Math" to student 2's list, yet
appends nothing to the course's list (`Course.enroll_student` finds
"Bob" already present), so the two appends do not happen together: the
student-side list grows from `[]` to `["Math"]` while the course-side
list stays `["Bob"]`. -/
theorem C2_partial_append_cex :
    (enrollCourse 2 1 smEnrolled).1 = Except.ok () ∧
    lookupA 2 smEnrolled.students = some ⟨2, "Bob", [], []⟩ ∧
    lookupA 2 ((enrollCourse 2 1 smEnrolled).2).students =
      some ⟨2, "Bob", [], ["Math"]⟩ ∧
    lookupA 1 smEnrolled.courses = some ⟨1, "Math", ["Bob"]⟩ ∧
    lookupA 1 ((enrollCourse 2 1 smEnrolled).2).courses =
      some ⟨1, "Math", ["Bob"]⟩ :=
  ⟨rfl, rfl, rfl, rfl, rfl⟩

/-- C2 amended: `enroll_course` fails with `NotFoundError` when either
id is unknown, leaving the state unchanged; on success it appends the
course's name to the student's list and appends the student's name to
the course's list unless that name is already present there (which can
happen when two students share a name) — in every successful outcome
both reciprocal references are present afterward. -/
theorem C2_enroll_amended (sid cid : Nat) (sm : SystemManager) :
    ((lookupA sid sm.students = none ∨ lookupA cid sm.courses = none) →
      enrollCourse sid cid sm = (Except.error Err.notFound, sm)) ∧
    (∀ st co sm', lookupA sid sm.students = some st →
      lookupA cid sm.courses = some co →
      enrollCourse sid cid sm = (Except.ok (), sm') →
      lookupA sid sm'.students =
        some { st with enrolled_courses := st.enrolled_courses ++ [co.name] } ∧
      lookupA cid sm'.courses =
        some (if st.name ∈ co.enrolled_students then co
              else { co with enrolled_students :=
                      co.enrolled_students ++ [st.name] })) := by
  constructor
  · intro hdisj
    unfold enrollCourse
    rcases hdisj with hn | hn
    · rw [hn]
    · rw [hn]
      cases lookupA sid sm.students <;> rfl
  · intro st co sm' hs hc h
    obtain ⟨st0, co0, hs0, hc0, hmem0, rfl⟩ := enroll_post h
    rw [hs] at hs0
    obtain rfl := Option.some.inj hs0
    rw [hc] at hc0
    obtain rfl := Option.some.inj hc0
    constructor
    · rw [lookupA_setAssoc_self]
      unfold Student.enroll_in_course
      rw [if_neg hmem0]
    · rw [lookupA_setAssoc_self]
      unfold Course.enroll_student
      split <;> rfl

/-- C2 witness: an unknown student id yields `notFound` with the state
unchanged; enrolling student 1 ("A") in course 1 ("Math") of `smSolo`
appends on both sides. -/
theorem C2_enroll_amended_witness :
    enrollCourse 5 1 smSolo = (Except.error Err.notFound, smSolo) ∧
    lookupA 1 ((enrollCourse 1 1 smSolo).2).students =
      some ⟨1, "A", [], ["Math"]⟩ ∧
    lookupA 1 ((enrollCourse 1 1 smSolo).2).courses =
      some ⟨1, "Math", ["A"]⟩ := by
  have h2 := (C2_enroll_amended 1 1 smSolo).2 ⟨1, "A", [], []⟩ ⟨1, "Math", []⟩
    ((enrollCourse 1 1 smSolo).2) (by decide) (by decide) rfl
  exact ⟨(C2_enroll_amended 5 1 smSolo).1 (Or.inl (by decide)),
    by simpa using h2.1, by simpa using h2.2⟩

end StdSys
